import Mathlib

/-!
Verification of rest_framework_nested/relations.py against its specification.

The file shallowly embeds the two field classes of the repository:
NestedHyperlinkedRelatedField (get_url, get_object, to_internal_value,
the constructor) and NestedHyperlinkedIdentityField (the constructor).

Python model objects are embedded as finite attribute maps; Python
dictionaries as ordered association lists whose update operation replaces
the value of an existing key in place (as dict assignment does).  Calls
into the host framework (URL reversal, the standard HyperlinkedRelatedField
fallback, queryset .get, the base to_internal_value) are represented
symbolically: each function returns a value recording exactly which
framework call is made and with which arguments, and uncaught Python
exceptions are represented through Except.
-/

set_option autoImplicit false

namespace NestedRelations

/-- A Python value: None, a string, an integer, or a model object carrying
a finite list of named attributes. -/
inductive PyVal where
  | vnone : PyVal
  | vstr (s : String) : PyVal
  | vint (n : Int) : PyVal
  | vobj (attrs : List (String × PyVal)) : PyVal

/-- Python getattr on an embedded value: only objects have attributes; a
missing attribute, or getattr on a non-object, is an AttributeError and is
modelled as none. -/
def pyGetattr : PyVal → String → Option PyVal
  | .vobj attrs, name => (attrs.find? (fun p => p.1 == name)).map (fun p => p.2)
  | _, _ => none

/-- reduce(getattr, [obj] + lookups): left fold of getattr over the
attribute names, starting from obj, failing as soon as one step fails. -/
def reduceGetattr (obj : PyVal) (lookups : List String) : Option PyVal :=
  lookups.foldlM pyGetattr obj

/-- If sep is a prefix of s, the remainder of s after it. -/
def stripSep : List Char → List Char → Option (List Char)
  | [], s => some s
  | _ :: _, [] => none
  | c :: cs, d :: ds => if c = d then stripSep cs ds else none

/-- One scan of Python str.split with a non-empty separator over character
lists: walk s left to right, cutting at each non-overlapping occurrence of
sep.  The fuel argument only makes the recursion structural; any fuel of at
least the length of s plus one gives the Python result. -/
def splitSepFuel (sep : List Char) : Nat → List Char → List Char → List (List Char)
  | 0, acc, s => [acc.reverse ++ s]
  | _ + 1, acc, [] => [acc.reverse]
  | fuel + 1, acc, c :: rest =>
    match stripSep sep (c :: rest) with
    | some rem => acc.reverse :: splitSepFuel sep fuel [] rem
    | none => splitSepFuel sep fuel (c :: acc) rest

/-- Python str.split(sep) for a non-empty separator. -/
def pySplit (s sep : String) : List String :=
  (splitSepFuel sep.toList (s.toList.length + 1) [] s.toList).map String.mk

/-- The value of one declared parent dotted path on obj: split the path on
the double underscore and reduce getattr over the pieces (lines 53 and 57
of relations.py). -/
def chainVal (obj : PyVal) (path : String) : Option PyVal :=
  reduceGetattr obj (pySplit path "__")

/-- The test of line 40 of relations.py: hasattr(obj, pk) and the pk value
is None or the empty string. -/
def unsavedGuard (obj : PyVal) : Bool :=
  match pyGetattr obj "pk" with
  | some .vnone => true
  | some (.vstr s) => s == ""
  | _ => false

/-- Dictionary lookup in an association list: first entry with the key. -/
def dictGet {α : Type} : List (String × α) → String → Option α
  | [], _ => none
  | (k', v') :: rest, k => if k' == k then some v' else dictGet rest k

/-- Whether the key is present. -/
def hasKey {α : Type} : List (String × α) → String → Bool
  | [], _ => false
  | (k', _) :: rest, k => k' == k || hasKey rest k

/-- Python dict assignment / update with a single key: replace the value of
an existing key in place, otherwise append the new entry at the end. -/
def dictSet {α : Type} : List (String × α) → String → α → List (String × α)
  | [], k, v => [(k, v)]
  | (k', v') :: rest, k, v =>
    if k' == k then (k, v) :: rest else (k', v') :: dictSet rest k v

/-- Python dict.pop: remove the entry with the given key. -/
def dictRemove {α : Type} (d : List (String × α)) (k : String) : List (String × α) :=
  d.filter (fun p => p.1 != k)

/-- The configuration state of a NestedHyperlinkedRelatedField that the
embedded methods read: lookup_field (class default "pk"), the
lookup_url_kwarg inherited from the framework base class, and
parent_lookup_kwargs (class default mapping parent_pk to parent__pk). -/
structure NestedField where
  lookup_field : String
  lookup_url_kwarg : String
  parent_lookup_kwargs : List (String × String)

/-- What get_url does, recorded symbolically: return None for an unsaved
object; delegate to the standard HyperlinkedRelatedField get_url with the
original four arguments; or call self.reverse with the assembled kwargs
dictionary, the request and the format. -/
inductive GetUrlResult where
  | unsaved : GetUrlResult
  | superFallback (obj : PyVal) (viewName : String) (request : Nat)
      (format : Option String) : GetUrlResult
  | reversed (viewName : String) (kwargs : List (String × PyVal)) (request : Nat)
      (format : Option String) : GetUrlResult

/-- The multi-level lookup loop of get_url (lines 48 to 63 of
relations.py): walk the declared parent lookups in order, evaluating each
dotted chain on obj; on the first AttributeError fall back to the standard
field, otherwise update kwargs and finally call reverse. -/
def getUrlLoop (obj : PyVal) (viewName : String) (request : Nat) (format : Option String) :
    List (String × String) → List (String × PyVal) → GetUrlResult
  | [], kwargs => .reversed viewName kwargs request format
  | (plk, path) :: rest, kwargs =>
    match chainVal obj path with
    | some v => getUrlLoop obj viewName request format rest (dictSet kwargs plk v)
    | none => .superFallback obj viewName request format

/-- NestedHyperlinkedRelatedField.get_url (lines 32 to 65 of relations.py).
An uncaught AttributeError from getattr(obj, lookup_field) on line 44 is an
error result; everything else is one of the three symbolic outcomes. -/
def get_url (f : NestedField) (obj : PyVal) (viewName : String) (request : Nat)
    (format : Option String) : Except String GetUrlResult :=
  if unsavedGuard obj then .ok .unsaved
  else
    match pyGetattr obj f.lookup_field with
    | none => .error "AttributeError"
    | some lv =>
      .ok (getUrlLoop obj viewName request format f.parent_lookup_kwargs
        [(f.lookup_url_kwarg, lv)])

/-- The inner loop of get_object (lines 79 to 81 of relations.py): for each
declared parent lookup kwarg, read its value from view_kwargs (a missing
key is an uncaught KeyError) and store it in kwargs under the dotted path. -/
def getObjectLoop (view_kwargs : List (String × PyVal)) :
    List (String × String) → List (String × PyVal) →
    Except String (List (String × PyVal))
  | [], kwargs => .ok kwargs
  | (plk, path) :: rest, kwargs =>
    match dictGet view_kwargs plk with
    | none => .error "KeyError"
    | some v => getObjectLoop view_kwargs rest (dictSet kwargs path v)

/-- NestedHyperlinkedRelatedField.get_object (lines 67 to 83 of
relations.py).  The final call get_queryset().get(**kwargs) is framework
territory; the embedding returns the kwargs dictionary that is passed to
it, and a missing view_kwargs key is an uncaught KeyError. -/
def get_object (f : NestedField) (view_kwargs : List (String × PyVal)) :
    Except String (List (String × PyVal)) :=
  match dictGet view_kwargs f.lookup_url_kwarg with
  | none => .error "KeyError"
  | some lv =>
    getObjectLoop view_kwargs f.parent_lookup_kwargs [(f.lookup_url_kwarg, lv)]

/-- The outcome of the base-class to_internal_value call on line 90 of
relations.py, seen from the subclass: a converted object, a ValidationError
carrying its detail list (the code of each detail entry), or any other
exception, which the subclass does not touch. -/
inductive SuperConvert where
  | ok (v : PyVal) : SuperConvert
  | validationError (detail : List String) : SuperConvert
  | otherError (e : String) : SuperConvert

/-- The outcome of a queryset .get call (lines 97 to 98 of relations.py):
a found object, one of the three exception classes the subclass catches,
or any other exception. -/
inductive QueryOutcome where
  | found (v : PyVal) : QueryOutcome
  | objectDoesNotExist : QueryOutcome
  | objectValueError : QueryOutcome
  | objectTypeError : QueryOutcome
  | otherError (e : String) : QueryOutcome

/-- The observable outcome of to_internal_value: a converted object, a
re-raised ValidationError, the does_not_exist failure raised by
self.fail, or a propagated exception of any other kind. -/
inductive ConvertResult where
  | ok (v : PyVal) : ConvertResult
  | validationError (detail : List String) : ConvertResult
  | failDoesNotExist : ConvertResult
  | otherError (e : String) : ConvertResult

/-- NestedHyperlinkedRelatedField.to_internal_value (lines 88 to 99 of
relations.py).  The base conversion and the queryset are parameters: sup is
the base-class to_internal_value, query is get_queryset().get keyed by the
kwargs it receives.  err.detail[0] on an empty detail list is an uncaught
IndexError. -/
def to_internal_value (f : NestedField) (query : List (String × PyVal) → QueryOutcome)
    (sup : PyVal → SuperConvert) (data : PyVal) : ConvertResult :=
  match sup data with
  | .ok v => .ok v
  | .otherError e => .otherError e
  | .validationError detail =>
    match detail.head? with
    | none => .otherError "IndexError"
    | some code =>
      if code != "no_match" then .validationError detail
      else
        match query [(f.lookup_field, data)] with
        | .found v => .ok v
        | .objectDoesNotExist => .failDoesNotExist
        | .objectValueError => .failDoesNotExist
        | .objectTypeError => .failDoesNotExist
        | .otherError e => .otherError e

/-- A Python keyword-argument value, as far as the two constructors need:
a string, a boolean, a string-to-string dictionary (the shape of
parent_lookup_kwargs), or any other value. -/
inductive KwVal where
  | str (s : String) : KwVal
  | bool (b : Bool) : KwVal
  | strDict (d : List (String × String)) : KwVal
  | val (v : PyVal) : KwVal

/-- The class-level default of parent_lookup_kwargs (lines 24 to 26 of
relations.py). -/
def defaultParentLookupKwargs : KwVal := .strDict [("parent_pk", "parent__pk")]

/-- NestedHyperlinkedRelatedField init (lines 28 to 30 of relations.py):
pop parent_lookup_kwargs from kwargs, defaulting to the class attribute,
and hand every positional argument and every remaining keyword argument to
the base-class constructor.  The result records the stored
parent_lookup_kwargs and the argument lists passed to the base class. -/
def NestedHyperlinkedRelatedField_init (args : List PyVal)
    (kwargs : List (String × KwVal)) :
    KwVal × List PyVal × List (String × KwVal) :=
  ((dictGet kwargs "parent_lookup_kwargs").getD defaultParentLookupKwargs,
   args,
   dictRemove kwargs "parent_lookup_kwargs")

/-- NestedHyperlinkedIdentityField init (lines 102 to 107 of relations.py):
assert that view_name is not None (an AssertionError otherwise), force
read_only to True and source to the star string, then delegate to the
NestedHyperlinkedRelatedField constructor with view_name as a keyword
argument.  The visible view_name parameter means kwargs itself never
contains a view_name key. -/
def NestedHyperlinkedIdentityField_init (view_name : Option String)
    (kwargs : List (String × KwVal)) :
    Except String (KwVal × List PyVal × List (String × KwVal)) :=
  match view_name with
  | none => .error "AssertionError"
  | some vn =>
    let kwargs1 := dictSet kwargs "read_only" (.bool true)
    let kwargs2 := dictSet kwargs1 "source" (.str "*")
    .ok (NestedHyperlinkedRelatedField_init [] (("view_name", .str vn) :: kwargs2))

/-- A sample field configuration: the class defaults of
NestedHyperlinkedRelatedField with the framework default lookup_url_kwarg. -/
def sampleField : NestedField :=
  ⟨"pk", "pk", [("parent_pk", "parent__pk")]⟩

/-- A sample saved object: pk 7, whose parent has pk 3. -/
def sampleObj : PyVal :=
  .vobj [("pk", .vint 7), ("parent", .vobj [("pk", .vint 3)])]

theorem dictGet_dictSet_self {α : Type} (d : List (String × α)) (k : String) (v : α) :
    dictGet (dictSet d k v) k = some v := by
  induction d with
  | nil => simp [dictSet, dictGet]
  | cons p rest ih =>
    obtain ⟨k', v'⟩ := p
    by_cases h : k' = k
    · subst h
      simp [dictSet, dictGet]
    · simp [dictSet, dictGet, h, ih]

theorem dictGet_dictSet_ne {α : Type} (d : List (String × α)) {k k' : String}
    (h : k' ≠ k) (v : α) : dictGet (dictSet d k v) k' = dictGet d k' := by
  induction d with
  | nil => simp [dictSet, dictGet, Ne.symm h]
  | cons p rest ih =>
    obtain ⟨k₀, v₀⟩ := p
    by_cases h₀ : k₀ = k
    · subst h₀
      simp [dictSet, dictGet, Ne.symm h]
    · simp [dictSet, dictGet, h₀, ih]

/-- If every declared chain on obj resolves and the declared parent URL
kwarg names are distinct, the get_url loop ends in a reverse call whose
kwargs dictionary extends the initial one with the chain value of each
declared entry. -/
theorem getUrlLoop_spec (obj : PyVal) (vn : String) (rq : Nat) (fm : Option String) :
    ∀ (entries : List (String × String)) (kw0 : List (String × PyVal)),
    (∀ p ∈ entries, (chainVal obj p.2).isSome) →
    (entries.map Prod.fst).Nodup →
    ∃ kwargs, getUrlLoop obj vn rq fm entries kw0 = .reversed vn kwargs rq fm ∧
      (∀ k, k ∉ entries.map Prod.fst → dictGet kwargs k = dictGet kw0 k) ∧
      (∀ p ∈ entries, dictGet kwargs p.1 = chainVal obj p.2) := by
  intro entries
  induction entries with
  | nil =>
    intro kw0 _ _
    exact ⟨kw0, rfl, fun k _ => rfl, fun p hp => absurd hp (List.not_mem_nil p)⟩
  | cons e rest ih =>
    intro kw0 hres hnd
    obtain ⟨plk, path⟩ := e
    obtain ⟨hv, hsome⟩ := Option.isSome_iff_exists.mp (hres (plk, path) (List.mem_cons_self _ _))
    have hnd' := List.nodup_cons.mp hnd
    obtain ⟨kwargs, hloop, hout, hin⟩ :=
      ih (dictSet kw0 plk hv) (fun p hp => hres p (List.mem_cons_of_mem _ hp)) hnd'.2
    refine ⟨kwargs, ?_, ?_, ?_⟩
    · simpa [getUrlLoop, hsome] using hloop
    · intro k hk
      have hk1 : k ≠ plk := fun hh => hk (by simp [hh])
      have hk2 : k ∉ rest.map Prod.fst := fun hh => hk (by simp [hh])
      rw [hout k hk2, dictGet_dictSet_ne _ hk1]
    · intro p hp
      rcases List.mem_cons.mp hp with hp | hp
      · subst hp
        rw [hout plk hnd'.1, dictGet_dictSet_self, hsome]
      · exact hin p hp

/-- C1: for an object passing the unsaved-object guard whose lookup_field
attribute and every declared parent dotted chain resolve, get_url builds a
kwargs dictionary mapping lookup_url_kwarg to getattr(obj, lookup_field)
and each declared parent URL kwarg to the left fold of getattr over its
path split on the double underscore, and calls reverse with view_name,
that dictionary, the request and the format. -/
theorem get_url_builds_kwargs_and_reverses (f : NestedField) (obj : PyVal)
    (vn : String) (rq : Nat) (fm : Option String) (lv : PyVal)
    (hguard : unsavedGuard obj = false)
    (hlf : pyGetattr obj f.lookup_field = some lv)
    (hres : ∀ p ∈ f.parent_lookup_kwargs, (chainVal obj p.2).isSome)
    (hnd : (f.parent_lookup_kwargs.map Prod.fst).Nodup)
    (hlu : f.lookup_url_kwarg ∉ f.parent_lookup_kwargs.map Prod.fst) :
    ∃ kwargs, get_url f obj vn rq fm = .ok (.reversed vn kwargs rq fm) ∧
      dictGet kwargs f.lookup_url_kwarg = some lv ∧
      ∀ p ∈ f.parent_lookup_kwargs, dictGet kwargs p.1 = chainVal obj p.2 := by
  obtain ⟨kwargs, hloop, hout, hin⟩ :=
    getUrlLoop_spec obj vn rq fm f.parent_lookup_kwargs
      [(f.lookup_url_kwarg, lv)] hres hnd
  refine ⟨kwargs, ?_, ?_, hin⟩
  · simp [get_url, hguard, hlf, hloop]
  · rw [hout _ hlu]
    simp [dictGet]

/-- C1 witness: the sample field and object at concrete arguments. -/
theorem get_url_builds_kwargs_and_reverses_witness :
    ∃ kwargs,
      get_url sampleField sampleObj "comment-detail" 0 none =
        .ok (.reversed "comment-detail" kwargs 0 none) ∧
      dictGet kwargs sampleField.lookup_url_kwarg = some (.vint 7) ∧
      ∀ p ∈ sampleField.parent_lookup_kwargs,
        dictGet kwargs p.1 = chainVal sampleObj p.2 :=
  get_url_builds_kwargs_and_reverses sampleField sampleObj "comment-detail" 0 none
    (.vint 7) rfl rfl
    (by decide) (by decide) (by decide)

/-- C7: an object whose pk attribute is None or the empty string makes
get_url return None at once, with no parent traversal and no reverse
call. -/
theorem get_url_unsaved_returns_none (f : NestedField) (obj : PyVal)
    (vn : String) (rq : Nat) (fm : Option String) (v : PyVal)
    (hpk : pyGetattr obj "pk" = some v) (hv : v = .vnone ∨ v = .vstr "") :
    get_url f obj vn rq fm = .ok .unsaved := by
  have hg : unsavedGuard obj = true := by
    rcases hv with hv | hv <;> subst hv <;> simp [unsavedGuard, hpk]
  simp [get_url, hg]

/-- C7 witness: an object with pk None. -/
theorem get_url_unsaved_returns_none_witness :
    get_url sampleField (.vobj [("pk", .vnone)]) "comment-detail" 0 none =
      .ok .unsaved :=
  get_url_unsaved_returns_none sampleField (.vobj [("pk", .vnone)])
    "comment-detail" 0 none .vnone rfl (Or.inl rfl)

/-- If some declared chain on obj fails with AttributeError, the get_url
loop falls back to the standard field with the original arguments,
whatever kwargs it had accumulated. -/
theorem getUrlLoop_fallback (obj : PyVal) (vn : String) (rq : Nat) (fm : Option String) :
    ∀ (entries : List (String × String)) (kw0 : List (String × PyVal)),
    (∃ p ∈ entries, chainVal obj p.2 = none) →
    getUrlLoop obj vn rq fm entries kw0 = .superFallback obj vn rq fm := by
  intro entries
  induction entries with
  | nil =>
    intro kw0 hfail
    obtain ⟨p, hp, _⟩ := hfail
    exact absurd hp (List.not_mem_nil p)
  | cons e rest ih =>
    intro kw0 hfail
    obtain ⟨plk, path⟩ := e
    match hc : chainVal obj path with
    | none => simp [getUrlLoop, hc]
    | some v =>
      obtain ⟨p, hp, hpnone⟩ := hfail
      rcases List.mem_cons.mp hp with hpe | hpr
      · rw [hpe] at hpnone
        simp [hpnone] at hc
      · simp only [getUrlLoop, hc]
        exact ih (dictSet kw0 plk v) ⟨p, hpr, hpnone⟩

/-- C8: when the unsaved-object guard does not fire, the lookup_field
attribute resolves, and evaluating some declared parent dotted chain
raises AttributeError, get_url returns exactly the standard
HyperlinkedRelatedField get_url applied to the same obj, view_name,
request and format, discarding any accumulated parent kwargs. -/
theorem get_url_attribute_error_fallback (f : NestedField) (obj : PyVal)
    (vn : String) (rq : Nat) (fm : Option String) (lv : PyVal)
    (hguard : unsavedGuard obj = false)
    (hlf : pyGetattr obj f.lookup_field = some lv)
    (hfail : ∃ p ∈ f.parent_lookup_kwargs, chainVal obj p.2 = none) :
    get_url f obj vn rq fm = .ok (.superFallback obj vn rq fm) := by
  simp [get_url, hguard, hlf,
    getUrlLoop_fallback obj vn rq fm f.parent_lookup_kwargs _ hfail]

/-- C8 witness: an object with a saved pk but no parent attribute. -/
theorem get_url_attribute_error_fallback_witness :
    get_url sampleField (.vobj [("pk", .vint 7)]) "comment-detail" 0 none =
      .ok (.superFallback (.vobj [("pk", .vint 7)]) "comment-detail" 0 none) :=
  get_url_attribute_error_fallback sampleField (.vobj [("pk", .vint 7)])
    "comment-detail" 0 none (.vint 7) rfl rfl
    ⟨("parent_pk", "parent__pk"), by decide, rfl⟩

/-- If view_kwargs holds every declared parent URL kwarg and the declared
dotted paths are distinct, the get_object loop ends with a kwargs
dictionary extending the initial one with, under each dotted path, the
view_kwargs value of its parent URL kwarg. -/
theorem getObjectLoop_spec (vkw : List (String × PyVal)) :
    ∀ (entries : List (String × String)) (kw0 : List (String × PyVal)),
    (∀ p ∈ entries, (dictGet vkw p.1).isSome) →
    (entries.map Prod.snd).Nodup →
    ∃ q, getObjectLoop vkw entries kw0 = .ok q ∧
      (∀ k, k ∉ entries.map Prod.snd → dictGet q k = dictGet kw0 k) ∧
      (∀ p ∈ entries, dictGet q p.2 = dictGet vkw p.1) := by
  intro entries
  induction entries with
  | nil =>
    intro kw0 _ _
    exact ⟨kw0, rfl, fun k _ => rfl, fun p hp => absurd hp (List.not_mem_nil p)⟩
  | cons e rest ih =>
    intro kw0 hall hnd
    obtain ⟨plk, path⟩ := e
    obtain ⟨hv, hsome⟩ := Option.isSome_iff_exists.mp (hall (plk, path) (List.mem_cons_self _ _))
    have hnd' := List.nodup_cons.mp hnd
    obtain ⟨q, hloop, hout, hin⟩ :=
      ih (dictSet kw0 path hv) (fun p hp => hall p (List.mem_cons_of_mem _ hp)) hnd'.2
    refine ⟨q, ?_, ?_, ?_⟩
    · simpa [getObjectLoop, hsome] using hloop
    · intro k hk
      have hk1 : k ≠ path := fun hh => hk (by simp [hh])
      have hk2 : k ∉ rest.map Prod.snd := fun hh => hk (by simp [hh])
      rw [hout k hk2, dictGet_dictSet_ne _ hk1]
    · intro p hp
      rcases List.mem_cons.mp hp with hp | hp
      · subst hp
        rw [hout path hnd'.1, dictGet_dictSet_self, hsome]
      · exact hin p hp

/-- C2: when view_kwargs holds the lookup_url_kwarg key and every declared
parent URL kwarg, get_object queries the queryset with a dictionary q
mapping lookup_url_kwarg to its view_kwargs value and each declared dotted
path to the view_kwargs value of its parent URL kwarg. -/
theorem get_object_builds_query (f : NestedField) (vkw : List (String × PyVal))
    (lv : PyVal)
    (hlu : dictGet vkw f.lookup_url_kwarg = some lv)
    (hall : ∀ p ∈ f.parent_lookup_kwargs, (dictGet vkw p.1).isSome)
    (hnd : (f.parent_lookup_kwargs.map Prod.snd).Nodup)
    (hlup : f.lookup_url_kwarg ∉ f.parent_lookup_kwargs.map Prod.snd) :
    ∃ q, get_object f vkw = .ok q ∧
      dictGet q f.lookup_url_kwarg = some lv ∧
      ∀ p ∈ f.parent_lookup_kwargs, dictGet q p.2 = dictGet vkw p.1 := by
  obtain ⟨q, hloop, hout, hin⟩ :=
    getObjectLoop_spec vkw f.parent_lookup_kwargs
      [(f.lookup_url_kwarg, lv)] hall hnd
  refine ⟨q, ?_, ?_, hin⟩
  · simp [get_object, hlu, hloop]
  · rw [hout _ hlup]
    simp [dictGet]

/-- C2 witness: the sample field on concrete URL arguments. -/
theorem get_object_builds_query_witness :
    ∃ q, get_object sampleField [("pk", .vint 7), ("parent_pk", .vint 3)] = .ok q ∧
      dictGet q sampleField.lookup_url_kwarg = some (.vint 7) ∧
      ∀ p ∈ sampleField.parent_lookup_kwargs,
        dictGet q p.2 = dictGet [("pk", .vint 7), ("parent_pk", .vint 3)] p.1 :=
  get_object_builds_query sampleField [("pk", .vint 7), ("parent_pk", .vint 3)]
    (.vint 7) rfl (by decide) (by decide) (by decide)

/-- C3: round trip.  Under the same resolution hypotheses as the get_url
statement, plus distinctness of the declared dotted paths, feeding the
kwargs dictionary that get_url hands to reverse back into get_object as
view_kwargs yields a query whose lookup_url_kwarg filter is
getattr(obj, lookup_field) and whose filter under each declared dotted
path is the value of that attribute chain on obj. -/
theorem get_url_get_object_roundtrip (f : NestedField) (obj : PyVal)
    (vn : String) (rq : Nat) (fm : Option String) (lv : PyVal)
    (hguard : unsavedGuard obj = false)
    (hlf : pyGetattr obj f.lookup_field = some lv)
    (hres : ∀ p ∈ f.parent_lookup_kwargs, (chainVal obj p.2).isSome)
    (hndk : (f.parent_lookup_kwargs.map Prod.fst).Nodup)
    (hluk : f.lookup_url_kwarg ∉ f.parent_lookup_kwargs.map Prod.fst)
    (hndp : (f.parent_lookup_kwargs.map Prod.snd).Nodup)
    (hlup : f.lookup_url_kwarg ∉ f.parent_lookup_kwargs.map Prod.snd) :
    ∃ kwargs q, get_url f obj vn rq fm = .ok (.reversed vn kwargs rq fm) ∧
      get_object f kwargs = .ok q ∧
      dictGet q f.lookup_url_kwarg = some lv ∧
      ∀ p ∈ f.parent_lookup_kwargs, dictGet q p.2 = chainVal obj p.2 := by
  obtain ⟨kwargs, hloop, hout, hin⟩ :=
    getUrlLoop_spec obj vn rq fm f.parent_lookup_kwargs
      [(f.lookup_url_kwarg, lv)] hres hndk
  have hkwlu : dictGet kwargs f.lookup_url_kwarg = some lv := by
    rw [hout _ hluk]
    simp [dictGet]
  obtain ⟨q, hget, qout, qin⟩ :=
    getObjectLoop_spec kwargs f.parent_lookup_kwargs
      [(f.lookup_url_kwarg, lv)]
      (fun p hp => by rw [hin p hp]; exact hres p hp) hndp
  refine ⟨kwargs, q, ?_, ?_, ?_, ?_⟩
  · simp [get_url, hguard, hlf, hloop]
  · simp [get_object, hkwlu, hget]
  · rw [qout _ hlup]
    simp [dictGet]
  · intro p hp
    rw [qin p hp, hin p hp]

/-- C3 witness: the sample field and object. -/
theorem get_url_get_object_roundtrip_witness :
    ∃ kwargs q,
      get_url sampleField sampleObj "comment-detail" 0 none =
        .ok (.reversed "comment-detail" kwargs 0 none) ∧
      get_object sampleField kwargs = .ok q ∧
      dictGet q sampleField.lookup_url_kwarg = some (.vint 7) ∧
      ∀ p ∈ sampleField.parent_lookup_kwargs,
        dictGet q p.2 = chainVal sampleObj p.2 :=
  get_url_get_object_roundtrip sampleField sampleObj "comment-detail" 0 none
    (.vint 7) rfl rfl (by decide) (by decide) (by decide) (by decide) (by decide)

theorem dictRemove_cons {α : Type} (k' : String) (v' : α)
    (rest : List (String × α)) (k : String) :
    dictRemove ((k', v') :: rest) k =
      if k' = k then dictRemove rest k else (k', v') :: dictRemove rest k := by
  by_cases h : k' = k <;> simp [dictRemove, h]

theorem dictGet_dictRemove_ne {α : Type} (d : List (String × α)) {k k₀ : String}
    (h : k ≠ k₀) : dictGet (dictRemove d k₀) k = dictGet d k := by
  induction d with
  | nil => rfl
  | cons p rest ih =>
    obtain ⟨k', v'⟩ := p
    rw [dictRemove_cons]
    by_cases h' : k' = k₀
    · rw [if_pos h', ih]
      subst h'
      simp [dictGet, Ne.symm h]
    · rw [if_neg h']
      by_cases hk : k' = k
      · simp [dictGet, hk]
      · simp [dictGet, hk, ih]

theorem hasKey_dictRemove_self {α : Type} (d : List (String × α)) (k : String) :
    hasKey (dictRemove d k) k = false := by
  induction d with
  | nil => rfl
  | cons p rest ih =>
    obtain ⟨k', v'⟩ := p
    rw [dictRemove_cons]
    by_cases h' : k' = k
    · rw [if_pos h']
      exact ih
    · rw [if_neg h']
      simp [hasKey, h', ih]

/-- C4: to_internal_value re-raises a base ValidationError whose first
detail code is not no_match; on a no_match code it runs the fallback query
keyed by lookup_field on the raw data and returns its object, translating
ObjectDoesNotExist, ObjectValueError and ObjectTypeError from that query
into the does_not_exist failure. -/
theorem to_internal_value_error_translation (f : NestedField)
    (query : List (String × PyVal) → QueryOutcome) (sup : PyVal → SuperConvert)
    (data : PyVal) :
    (∀ detail code, sup data = .validationError detail → detail.head? = some code →
      code ≠ "no_match" → to_internal_value f query sup data = .validationError detail) ∧
    (∀ detail v, sup data = .validationError detail → detail.head? = some "no_match" →
      query [(f.lookup_field, data)] = .found v →
      to_internal_value f query sup data = .ok v) ∧
    (∀ detail, sup data = .validationError detail → detail.head? = some "no_match" →
      (query [(f.lookup_field, data)] = .objectDoesNotExist ∨
       query [(f.lookup_field, data)] = .objectValueError ∨
       query [(f.lookup_field, data)] = .objectTypeError) →
      to_internal_value f query sup data = .failDoesNotExist) := by
  refine ⟨?_, ?_, ?_⟩
  · intro detail code hs hh hne
    simp [to_internal_value, hs, hh, hne]
  · intro detail v hs hh hq
    simp [to_internal_value, hs, hh, hq]
  · intro detail hs hh hq
    rcases hq with hq | hq | hq <;> simp [to_internal_value, hs, hh, hq]

/-- A base conversion that always raises ValidationError with code
no_match, as when the data is not a recognisable URL. -/
def supNoMatch : PyVal → SuperConvert := fun _ => .validationError ["no_match"]

/-- A queryset whose .get always raises ObjectDoesNotExist. -/
def queryEmpty : List (String × PyVal) → QueryOutcome := fun _ => .objectDoesNotExist

/-- C4 witness: a no_match base error followed by an empty fallback query
becomes the does_not_exist failure. -/
theorem to_internal_value_error_translation_witness :
    to_internal_value sampleField queryEmpty supNoMatch (.vint 7) = .failDoesNotExist :=
  (to_internal_value_error_translation sampleField queryEmpty supNoMatch
    (.vint 7)).2.2 ["no_match"] rfl rfl (Or.inl rfl)

/-- If some declared parent lookup kwarg is missing from view_kwargs, the
get_object loop stops with the uncaught KeyError of line 80 of
relations.py, whatever kwargs it had accumulated. -/
theorem getObjectLoop_keyError (vkw : List (String × PyVal)) :
    ∀ (entries : List (String × String)) (kw0 : List (String × PyVal)),
    (∃ p ∈ entries, dictGet vkw p.1 = none) →
    getObjectLoop vkw entries kw0 = .error "KeyError" := by
  intro entries
  induction entries with
  | nil =>
    intro kw0 hfail
    obtain ⟨p, hp, _⟩ := hfail
    exact absurd hp (List.not_mem_nil p)
  | cons e rest ih =>
    intro kw0 hfail
    obtain ⟨plk, path⟩ := e
    match hc : dictGet vkw plk with
    | none => simp [getObjectLoop, hc]
    | some v =>
      obtain ⟨p, hp, hpnone⟩ := hfail
      rcases List.mem_cons.mp hp with hpe | hpr
      · rw [hpe] at hpnone
        simp [hpnone] at hc
      · simp only [getObjectLoop, hc]
        exact ih (dictSet kw0 path v) ⟨p, hpr, hpnone⟩

/-- C5: the only recoveries in the three methods are the two modelled
framework conditions (AttributeError during a parent chain reduction in
get_url, and a no_match ValidationError in to_internal_value together with
the translation of its fallback-query does-not-exist family).  Every other
error condition propagates unchanged: an AttributeError from the
lookup_field getattr, a KeyError from a view_kwargs miss on
lookup_url_kwarg, any non-ValidationError from the base conversion, a
re-raised non-no_match ValidationError, any unlisted exception from the
fallback query, a KeyError from a view_kwargs miss on any declared parent
lookup kwarg, and the IndexError of indexing an empty ValidationError
detail. -/
theorem no_other_error_recovery :
    (∀ (f : NestedField) (obj : PyVal) (vn : String) (rq : Nat) (fm : Option String),
      unsavedGuard obj = false → pyGetattr obj f.lookup_field = none →
      get_url f obj vn rq fm = .error "AttributeError") ∧
    (∀ (f : NestedField) (vkw : List (String × PyVal)),
      dictGet vkw f.lookup_url_kwarg = none →
      get_object f vkw = .error "KeyError") ∧
    (∀ (f : NestedField) (query : List (String × PyVal) → QueryOutcome)
      (sup : PyVal → SuperConvert) (data : PyVal) (e : String),
      sup data = .otherError e →
      to_internal_value f query sup data = .otherError e) ∧
    (∀ (f : NestedField) (query : List (String × PyVal) → QueryOutcome)
      (sup : PyVal → SuperConvert) (data : PyVal) (detail : List String) (code : String),
      sup data = .validationError detail → detail.head? = some code →
      code ≠ "no_match" →
      to_internal_value f query sup data = .validationError detail) ∧
    (∀ (f : NestedField) (query : List (String × PyVal) → QueryOutcome)
      (sup : PyVal → SuperConvert) (data : PyVal) (detail : List String) (e : String),
      sup data = .validationError detail → detail.head? = some "no_match" →
      query [(f.lookup_field, data)] = .otherError e →
      to_internal_value f query sup data = .otherError e) ∧
    (∀ (f : NestedField) (vkw : List (String × PyVal)) (lv : PyVal),
      dictGet vkw f.lookup_url_kwarg = some lv →
      (∃ p ∈ f.parent_lookup_kwargs, dictGet vkw p.1 = none) →
      get_object f vkw = .error "KeyError") ∧
    (∀ (f : NestedField) (query : List (String × PyVal) → QueryOutcome)
      (sup : PyVal → SuperConvert) (data : PyVal),
      sup data = .validationError [] →
      to_internal_value f query sup data = .otherError "IndexError") := by
  refine ⟨?_, ?_, ?_, ?_, ?_, ?_, ?_⟩
  · intro f obj vn rq fm hguard hlf
    simp [get_url, hguard, hlf]
  · intro f vkw hlu
    simp [get_object, hlu]
  · intro f query sup data e hs
    simp [to_internal_value, hs]
  · intro f query sup data detail code hs hh hne
    simp [to_internal_value, hs, hh, hne]
  · intro f query sup data detail e hs hh hq
    simp [to_internal_value, hs, hh, hq]
  · intro f vkw lv hlu hfail
    simp [get_object, hlu, getObjectLoop_keyError vkw _ _ hfail]
  · intro f query sup data hs
    simp [to_internal_value, hs]

/-- C5 witness: an object with no pk attribute propagates the
AttributeError of the lookup_field getattr. -/
theorem no_other_error_recovery_witness :
    get_url sampleField (.vobj []) "comment-detail" 0 none =
      .error "AttributeError" :=
  no_other_error_recovery.1 sampleField (.vobj []) "comment-detail" 0 none rfl rfl

/-- C9: the NestedHyperlinkedRelatedField constructor pops
parent_lookup_kwargs out of kwargs, storing its value when present and the
class default mapping parent_pk to parent__pk when absent, and passes all
positional arguments and all remaining keyword arguments unchanged to the
base-class constructor, which never sees a parent_lookup_kwargs key. -/
theorem related_field_init_spec (args : List PyVal) (kwargs : List (String × KwVal)) :
    (NestedHyperlinkedRelatedField_init args kwargs).2.1 = args ∧
    (∀ w, dictGet kwargs "parent_lookup_kwargs" = some w →
      (NestedHyperlinkedRelatedField_init args kwargs).1 = w) ∧
    (dictGet kwargs "parent_lookup_kwargs" = none →
      (NestedHyperlinkedRelatedField_init args kwargs).1 =
        .strDict [("parent_pk", "parent__pk")]) ∧
    hasKey (NestedHyperlinkedRelatedField_init args kwargs).2.2
      "parent_lookup_kwargs" = false ∧
    (∀ k, k ≠ "parent_lookup_kwargs" →
      dictGet (NestedHyperlinkedRelatedField_init args kwargs).2.2 k =
        dictGet kwargs k) := by
  refine ⟨rfl, ?_, ?_, ?_, ?_⟩
  · intro w hw
    simp [NestedHyperlinkedRelatedField_init, hw]
  · intro hw
    simp [NestedHyperlinkedRelatedField_init, hw, defaultParentLookupKwargs]
  · exact hasKey_dictRemove_self kwargs "parent_lookup_kwargs"
  · intro k hk
    exact dictGet_dictRemove_ne kwargs hk

/-- C9 witness: a kwargs dictionary with an explicit parent_lookup_kwargs
entry and one unrelated keyword. -/
theorem related_field_init_spec_witness :
    (NestedHyperlinkedRelatedField_init [.vint 1]
      [("parent_lookup_kwargs", .strDict [("blog_pk", "post__blog__pk")]),
       ("queryset", .str "comments")]).2.1 = [PyVal.vint 1] ∧
    (∀ w, dictGet [("parent_lookup_kwargs", KwVal.strDict [("blog_pk", "post__blog__pk")]),
       ("queryset", KwVal.str "comments")] "parent_lookup_kwargs" = some w →
      (NestedHyperlinkedRelatedField_init [.vint 1]
        [("parent_lookup_kwargs", .strDict [("blog_pk", "post__blog__pk")]),
         ("queryset", .str "comments")]).1 = w) ∧
    (dictGet [("parent_lookup_kwargs", KwVal.strDict [("blog_pk", "post__blog__pk")]),
       ("queryset", KwVal.str "comments")] "parent_lookup_kwargs" = none →
      (NestedHyperlinkedRelatedField_init [.vint 1]
        [("parent_lookup_kwargs", .strDict [("blog_pk", "post__blog__pk")]),
         ("queryset", .str "comments")]).1 = .strDict [("parent_pk", "parent__pk")]) ∧
    hasKey (NestedHyperlinkedRelatedField_init [.vint 1]
      [("parent_lookup_kwargs", .strDict [("blog_pk", "post__blog__pk")]),
       ("queryset", .str "comments")]).2.2 "parent_lookup_kwargs" = false ∧
    (∀ k, k ≠ "parent_lookup_kwargs" →
      dictGet (NestedHyperlinkedRelatedField_init [.vint 1]
        [("parent_lookup_kwargs", .strDict [("blog_pk", "post__blog__pk")]),
         ("queryset", .str "comments")]).2.2 k =
        dictGet [("parent_lookup_kwargs", KwVal.strDict [("blog_pk", "post__blog__pk")]),
          ("queryset", KwVal.str "comments")] k) :=
  related_field_init_spec [.vint 1]
    [("parent_lookup_kwargs", .strDict [("blog_pk", "post__blog__pk")]),
     ("queryset", .str "comments")]

/-- C6: the NestedHyperlinkedIdentityField constructor fails its assertion
on a missing view_name; otherwise it forces read_only to True and source
to the star string and delegates to the NestedHyperlinkedRelatedField
constructor with view_name passed through as a keyword argument, so the
base class receives read_only, source and view_name while the URL
construction and parsing behaviour stays the inherited get_url and
get_object of this file. -/
theorem identity_field_init_spec :
    (∀ kwargs, NestedHyperlinkedIdentityField_init none kwargs =
      .error "AssertionError") ∧
    (∀ (vn : String) (kwargs : List (String × KwVal)),
      ∃ r, NestedHyperlinkedIdentityField_init (some vn) kwargs = .ok r ∧
        r = NestedHyperlinkedRelatedField_init []
          (("view_name", .str vn) ::
            dictSet (dictSet kwargs "read_only" (.bool true)) "source" (.str "*")) ∧
        dictGet r.2.2 "read_only" = some (.bool true) ∧
        dictGet r.2.2 "source" = some (.str "*") ∧
        dictGet r.2.2 "view_name" = some (.str vn) ∧
        r.2.1 = []) := by
  constructor
  · intro kwargs
    rfl
  · intro vn kwargs
    refine ⟨_, rfl, rfl, ?_, ?_, ?_, rfl⟩
    · show dictGet (dictRemove _ "parent_lookup_kwargs") "read_only" = _
      rw [dictGet_dictRemove_ne _ (by decide)]
      show (if ("view_name" == "read_only") = true then _ else
        dictGet (dictSet (dictSet kwargs "read_only" (.bool true)) "source" (.str "*"))
          "read_only") = _
      rw [if_neg (by decide), dictGet_dictSet_ne _ (by decide),
        dictGet_dictSet_self]
    · show dictGet (dictRemove _ "parent_lookup_kwargs") "source" = _
      rw [dictGet_dictRemove_ne _ (by decide)]
      show (if ("view_name" == "source") = true then _ else
        dictGet (dictSet (dictSet kwargs "read_only" (.bool true)) "source" (.str "*"))
          "source") = _
      rw [if_neg (by decide), dictGet_dictSet_self]
    · show dictGet (dictRemove _ "parent_lookup_kwargs") "view_name" = _
      rw [dictGet_dictRemove_ne _ (by decide)]
      show (if ("view_name" == "view_name") = true then some (KwVal.str vn) else _) = _
      rw [if_pos (by decide)]

/-- C6 witness: a concrete view name and an empty extra kwargs
dictionary. -/
theorem identity_field_init_spec_witness :
    ∃ r, NestedHyperlinkedIdentityField_init (some "comment-detail") [] = .ok r ∧
      r = NestedHyperlinkedRelatedField_init []
        (("view_name", .str "comment-detail") ::
          dictSet (dictSet [] "read_only" (.bool true)) "source" (.str "*")) ∧
      dictGet r.2.2 "read_only" = some (.bool true) ∧
      dictGet r.2.2 "source" = some (.str "*") ∧
      dictGet r.2.2 "view_name" = some (.str "comment-detail") ∧
      r.2.1 = [] :=
  identity_field_init_spec.2 "comment-detail" []

end NestedRelations
